import Mathlib

/-!
Verification of the photo organizer (file_organizer.py) against its
natural-language specification.

The Python source is shallowly embedded below:

* The five regular expressions of extract_timestamp_from_filename, and the
  DateTimeOriginal regular expression of get_image_date_taken, are all
  fixed-length sequences of character classes (digits, the separator class
  matching a dash or an underscore, and literal characters), so re.search is
  embedded exactly as: try to match the class sequence at every position from
  the left, first success wins, with the two capture groups collected in
  pattern order.
* get_image_date_taken is embedded over an abstract EXIF table (a list of
  tag/value string pairs, the order of dictionary iteration); a Boolean
  parameter models the case in which opening the image or reading its
  metadata raises, which the Python except clause maps to None.
* get_video_date_created is embedded over an abstract environment describing
  what the hachoir library, the ffprobe subprocess and the filesystem would
  answer.  Exception control flow of the inner try is made explicit with
  Except, because the inner except clause itself raises a NameError when the
  local name json is not yet bound (the import json statement sits inside
  the try body, after the point where a missing ffprobe executable raises
  FileNotFoundError).
* process_file and process_unsorted_files are embedded as state transformers
  over an abstract filesystem (a map from paths to file identities), the
  process_log table and the issues table.  Paths are lists of segments, so
  os.path.join parent child is parent ++ [child].  shutil.move follows its
  actual semantics of silently replacing an existing regular file at the
  destination.  I/O failure of a move is modelled by an oracle saying which
  moves raise.  The database itself is assumed available (log_process and
  log_issue append their row); the classifier results (mimetypes) and the
  two metadata extractor results for a concrete file on disk are carried as
  fields of the abstract file record, since they are functions of the file
  bytes, which the orchestrator never inspects directly.
-/

/-- Python f-string 02d formatting of a nonnegative integer. -/
def pad2 (n : Nat) : String :=
  if n < 10 then "0" ++ toString n else toString n

/-- Python int() on a string of decimal digits. -/
def digitsToNat (l : List Char) : Nat :=
  l.foldl (fun a c => a * 10 + (c.toNat - 48)) 0

/-- Character classes occurring in the regular expressions of the source:
a decimal digit, the class matching a dash or an underscore, and a literal
character. -/
inductive CC where
  | digit
  | dashUnd
  | lit (c : Char)
  deriving DecidableEq

/-- One element of a fixed-length pattern: a character class together with
the number of the capture group it belongs to (0 meaning no group). -/
structure PatElem where
  cc : CC
  grp : Nat
  deriving DecidableEq

def ccMatches : CC → Char → Bool
  | CC.digit, c => c.isDigit
  | CC.dashUnd, c => c = '-' || c = '_'
  | CC.lit a, c => c = a

/-- Match a fixed-length class sequence at the start of the text, collecting
the characters of capture groups 1 and 2 in order. -/
def matchAt : List PatElem → List Char → Option (List Char × List Char)
  | [], _ => some ([], [])
  | _ :: _, [] => none
  | e :: es, c :: cs =>
    if ccMatches e.cc c then
      (matchAt es cs).map (fun g =>
        if e.grp = 1 then (c :: g.1, g.2)
        else if e.grp = 2 then (g.1, c :: g.2)
        else g)
    else none

/-- re.search for a fixed-length pattern: try each start position from the
left, first success wins. -/
def searchFrom (p : List PatElem) : List Char → Option (List Char × List Char)
  | [] => matchAt p []
  | c :: cs =>
    match matchAt p (c :: cs) with
    | some r => some r
    | none => searchFrom p cs

/-- n digit classes all belonging to capture group g. -/
def digitsG (g n : Nat) : List PatElem :=
  List.replicate n ⟨CC.digit, g⟩

/-- Source pattern (\d ⁴)[-_](\d ²)[-_]\d ² labelled YYYY-MM-DD or YYYY_MM_DD. -/
def pat1 : List PatElem :=
  digitsG 1 4 ++ [⟨CC.dashUnd, 0⟩] ++ digitsG 2 2 ++ [⟨CC.dashUnd, 0⟩] ++ digitsG 0 2

/-- Source pattern \d ²[-_](\d ²)[-_](\d ⁴) labelled DD-MM-YYYY or DD_MM_YYYY.
Note that capture group 1 is the middle two-digit field and capture group 2
is the four-digit field. -/
def pat2 : List PatElem :=
  digitsG 0 2 ++ [⟨CC.dashUnd, 0⟩] ++ digitsG 1 2 ++ [⟨CC.dashUnd, 0⟩] ++ digitsG 2 4

/-- Source pattern (\d ⁴)(\d ²)\d ² labelled YYYYMMDD. -/
def pat3 : List PatElem :=
  digitsG 1 4 ++ digitsG 2 2 ++ digitsG 0 2

/-- Source pattern IMG[-_](\d ⁴)(\d ²)\d ². -/
def pat4 : List PatElem :=
  [⟨CC.lit 'I', 0⟩, ⟨CC.lit 'M', 0⟩, ⟨CC.lit 'G', 0⟩, ⟨CC.dashUnd, 0⟩] ++
    digitsG 1 4 ++ digitsG 2 2 ++ digitsG 0 2

/-- Source pattern VID[-_](\d ⁴)(\d ²)\d ². -/
def pat5 : List PatElem :=
  [⟨CC.lit 'V', 0⟩, ⟨CC.lit 'I', 0⟩, ⟨CC.lit 'D', 0⟩, ⟨CC.dashUnd, 0⟩] ++
    digitsG 1 4 ++ digitsG 2 2 ++ digitsG 0 2

/-- The ordered pattern list of extract_timestamp_from_filename. -/
def filenamePatterns : List (List PatElem) :=
  [pat1, pat2, pat3, pat4, pat5]

/-- The pattern loop of extract_timestamp_from_filename: for each pattern in
order, search; on a match, unpack the two groups as year and month, and if
the pair is not in the future return (str(year), month formatted 02d);
otherwise fall through to the next pattern. -/
def tryPatterns (nowY nowM : Nat) (s : List Char) :
    List (List PatElem) → Option (String × String)
  | [] => none
  | p :: ps =>
    match searchFrom p s with
    | some g =>
      let year := digitsToNat g.1
      let month := digitsToNat g.2
      if year < nowY ∨ (year = nowY ∧ month ≤ nowM) then
        some (toString year, pad2 month)
      else tryPatterns nowY nowM s ps
    | none => tryPatterns nowY nowM s ps

/-- Embedding of extract_timestamp_from_filename; nowY and nowM are the year
and month of datetime.datetime.now() at the moment of the call. -/
def extract_timestamp_from_filename (nowY nowM : Nat) (filename : String) :
    Option (String × String) :=
  tryPatterns nowY nowM filename.data filenamePatterns

/-- Decision of the validation branch of extract_timestamp_from_filename:
true when the given search result is no obstacle to trying the next pattern,
that is, when the pattern did not match at all, or matched but the unpacked
year/month pair lies in the future of the current calendar month. -/
def rejectsB (nowY nowM : Nat) : Option (List Char × List Char) → Bool
  | some g =>
    if digitsToNat g.1 < nowY ∨ (digitsToNat g.1 = nowY ∧ digitsToNat g.2 ≤ nowM) then
      false
    else true
  | none => true

/-- The regular expression (\d ⁴):(\d ²):\d ² that get_image_date_taken
applies with re.search to the DateTimeOriginal tag value. -/
def imageDatePat : List PatElem :=
  digitsG 1 4 ++ [⟨CC.lit ':', 0⟩] ++ digitsG 2 2 ++ [⟨CC.lit ':', 0⟩] ++ digitsG 0 2

/-- One entry of the EXIF dictionary of an image, after the tag identifier
has been translated through PIL.ExifTags.TAGS: the tag name and its value. -/
structure TagEntry where
  tag : String
  value : String
  deriving DecidableEq

/-- The loop of get_image_date_taken over the EXIF entries: on an entry
tagged DateTimeOriginal whose value contains the date pattern, return the
two captured groups; otherwise keep scanning; fall off the end with None. -/
def scanExif : List TagEntry → Option (String × String)
  | [] => none
  | e :: es =>
    if e.tag = "DateTimeOriginal" then
      match searchFrom imageDatePat e.value.data with
      | some g => some (⟨g.1⟩, ⟨g.2⟩)
      | none => scanExif es
    else scanExif es

/-- Embedding of get_image_date_taken.  The first argument is the result of
img.getexif on the file: none when the image has no EXIF dictionary (the
falsy check on exif_data; the empty dictionary behaves identically to the
embedding of an empty list).  The Boolean raises models any exception
while opening the file or reading its metadata, which the except clause of
the source maps to None. -/
def get_image_date_taken (exif : Option (List TagEntry)) (raises : Bool) :
    Option (String × String) :=
  if raises then none
  else
    match exif with
    | none => none
    | some entries => scanExif entries

/-- A year/month pair carried by a Python datetime value (hachoir metadata
dates, parsed ffprobe tag strings, or datetime.fromtimestamp of a file
stat). -/
structure VDate where
  year : Nat
  month : Nat
  deriving DecidableEq

/-- The (str(date.year), formatted 02d month) pair that the video extractor
builds from a datetime value. -/
def fmtVDate (d : VDate) : String × String :=
  (toString d.year, pad2 d.month)

/-- The three creation-date attributes that get_video_date_created probes on
a hachoir metadata object, in order. -/
structure HMeta where
  creation_date : Option VDate
  datetime_original : Option VDate
  creation_datetime : Option VDate
  deriving DecidableEq

/-- Abstract host environment seen by get_video_date_created for one file:
what hachoir answers, whether the ffprobe executable exists and what it
prints, and the filesystem timestamps. -/
structure VideoEnv where
  /-- createParser(file_path) returned an object rather than None -/
  hachoirParses : Bool
  /-- extractMetadata result when a hachoir parse object exists -/
  hachoirMeta : Option HMeta
  /-- the ffprobe executable is present on the host -/
  ffprobePresent : Bool
  /-- return code of the ffprobe run, when it runs -/
  ffprobeRC : Nat
  /-- stdout of ffprobe parses as JSON -/
  ffprobeJsonOk : Bool
  /-- the date found by the tag scanning loop over format and stream tags,
  after trying the three strptime formats; none when no tag parses -/
  ffprobeDate : Option VDate
  /-- os.path.exists(file_path) -/
  fileExists : Bool
  /-- datetime.fromtimestamp(stat.st_ctime) -/
  ctime : VDate
  /-- datetime.fromtimestamp(stat.st_mtime) -/
  mtime : VDate
  deriving DecidableEq

/-- First strategy of get_video_date_created: hachoir metadata, probing the
three attributes in order. -/
def hachoirStep (env : VideoEnv) : Option VDate :=
  if env.hachoirParses then
    match env.hachoirMeta with
    | none => none
    | some m =>
      match m.creation_date with
      | some d => some d
      | none =>
        match m.datetime_original with
        | some d => some d
        | none => m.creation_datetime
  else none

/-- Second strategy of get_video_date_created: the inner try block around
the ffprobe subprocess.  Except.error marks an exception escaping the inner
try uncaught.  When the ffprobe executable is absent, subprocess.run raises
FileNotFoundError before the statement import json has executed; evaluating
the inner except clause, which dereferences the local name json for
json.JSONDecodeError, therefore raises an UnboundLocalError that escapes to
the outer handler of the function.  When ffprobe ran with return code 0,
the json module has been imported, so a JSON parse failure is caught by the
inner except clause and control falls through to the next strategy. -/
def ffprobeStep (env : VideoEnv) : Except String (Option (String × String)) :=
  if env.ffprobePresent = false then
    Except.error "UnboundLocalError: json referenced in the except clause before import json ran"
  else if env.ffprobeRC = 0 then
    if env.ffprobeJsonOk then
      match env.ffprobeDate with
      | some d => Except.ok (some (fmtVDate d))
      | none => Except.ok none
    else Except.ok none
  else Except.ok none

/-- Third strategy of get_video_date_created: file stats, creation time
first and then modification time, each accepted only when its year exceeds
1980. -/
def fileStatsStep (env : VideoEnv) : Option (String × String) :=
  if env.fileExists then
    if env.ctime.year > 1980 then some (fmtVDate env.ctime)
    else if env.mtime.year > 1980 then some (fmtVDate env.mtime)
    else none
  else none

/-- Embedding of get_video_date_created: hachoir first; then the ffprobe
block, whose uncaught exception is absorbed by the outer except clause into
an immediate None; then the file-stats fallback. -/
def get_video_date_created (env : VideoEnv) : Option (String × String) :=
  match hachoirStep env with
  | some d => some (fmtVDate d)
  | none =>
    match ffprobeStep env with
    | Except.error _ => none
    | Except.ok (some r) => some r
    | Except.ok none => fileStatsStep env

/-- A filesystem path, as the list of its segments; os.path.join parent
child is parent ++ [child]. -/
abbrev FPath := List String

/-- One row of the issues table (the UTC timestamp column carries no
information relevant to the claims and is omitted). -/
structure Issue where
  filename : String
  warning : Option Nat
  error : Option Nat
  description : String
  deriving DecidableEq

/-- The mutable state threaded through the orchestrator: the filesystem as
a map from paths to file identities (the identity stands for the file
contents; none means no file at that path) and the two database tables. -/
structure OrgState where
  fs : FPath → Option Nat
  processLog : List (String × FPath)
  issues : List Issue

/-- I/O oracle: which shutil.move calls raise, keyed by source and
destination path. -/
structure MoveEnv where
  moveFails : FPath → FPath → Bool

/-- shutil.move semantics on the abstract filesystem: the destination now
holds what the source held, silently replacing any file previously at the
destination, and the source is gone. -/
def doMove (src dst : FPath) (fs : FPath → Option Nat) : FPath → Option Nat :=
  fun p => if p = dst then fs src else if p = src then none else fs p

def ErrorCodes.UNPROCESSABLE_FILE : Nat := 100
def ErrorCodes.MISSING_DATE : Nat := 200
def ErrorCodes.MOVE_ERROR : Nat := 300
def ErrorCodes.DATABASE_ERROR : Nat := 400

def WarningCodes.NO_DATE_METADATA : Nat := 10
def WarningCodes.UNSUPPORTED_FILE : Nat := 20
def WarningCodes.FILENAME_DATE_EXTRACTION : Nat := 30

/-- The terminal disposition of one file in the primary sweep, following
the ProcessingOutcome taxonomy of the specification. -/
inductive Disposition where
  | organized (year month : String)
  | needsSort
  | unprocessable
  | failed
  deriving DecidableEq

/-- One regular file enumerated by the phase-1 walk of the source tree.
isImage and isVideo are the results of is_image_file and is_video_file
(mimetypes.guess_type on the name); imageDate and videoDate are what
get_image_date_taken and get_video_date_created would answer for this file
on this host, carried as data because they are functions of the file bytes
and host environment, which process_file treats as a black box. -/
structure MFile where
  path : FPath
  name : String
  isImage : Bool
  isVideo : Bool
  imageDate : Option (String × String)
  videoDate : Option (String × String)

/-- The except handler of process_file: try to move the file to the
unprocessable folder; if that secondary move also raises, record a
MOVE_ERROR issue; in both cases record the UNPROCESSABLE_FILE issue.  The
resulting disposition is unprocessable when the quarantine move landed and
failed when the file stayed where it was. -/
def exceptHandler (env : MoveEnv) (file : MFile) (unprocessable_folder : FPath)
    (st : OrgState) : OrgState × Disposition :=
  let qpath := unprocessable_folder ++ [file.name]
  if env.moveFails file.path qpath then
    ({ st with issues := st.issues ++
        [⟨file.name, none, some ErrorCodes.MOVE_ERROR,
          "Failed to move file to unprocessable folder"⟩,
         ⟨file.name, none, some ErrorCodes.UNPROCESSABLE_FILE,
          "Error processing file: " ++ file.name⟩] },
     Disposition.failed)
  else
    ({ st with
        fs := doMove file.path qpath st.fs,
        processLog := st.processLog ++ [(file.name, qpath)],
        issues := st.issues ++
          [⟨file.name, none, some ErrorCodes.UNPROCESSABLE_FILE,
            "Error processing file: " ++ file.name⟩] },
     Disposition.unprocessable)

/-- Embedding of process_file.  The year/month folder creation by
os.makedirs is a no-op on the abstract filesystem, which only tracks
regular files; any raising move lands in the except handler. -/
def process_file (env : MoveEnv) (file : MFile)
    (target_root to_sort_folder unprocessable_folder : FPath)
    (st : OrgState) : OrgState × Disposition :=
  if file.isImage || file.isVideo then
    let date_info := if file.isImage then file.imageDate else file.videoDate
    match date_info with
    | some ym =>
      let tpath := target_root ++ [ym.1, ym.2, file.name]
      if env.moveFails file.path tpath then
        exceptHandler env file unprocessable_folder st
      else
        ({ st with
            fs := doMove file.path tpath st.fs,
            processLog := st.processLog ++ [(file.name, tpath)] },
         Disposition.organized ym.1 ym.2)
    | none =>
      let st1 := { st with issues := st.issues ++
        [⟨file.name, some WarningCodes.NO_DATE_METADATA, none,
          "No date metadata found: " ++ file.name⟩] }
      let tpath := to_sort_folder ++ [file.name]
      if env.moveFails file.path tpath then
        exceptHandler env file unprocessable_folder st1
      else
        ({ st1 with
            fs := doMove file.path tpath st1.fs,
            processLog := st1.processLog ++ [(file.name, tpath)] },
         Disposition.needsSort)
  else
    let tpath := unprocessable_folder ++ [file.name]
    if env.moveFails file.path tpath then
      exceptHandler env file unprocessable_folder st
    else
      ({ st with
          fs := doMove file.path tpath st.fs,
          processLog := st.processLog ++ [(file.name, tpath)],
          issues := st.issues ++
            [⟨file.name, some WarningCodes.UNSUPPORTED_FILE, none,
              "File is neither image nor video: " ++ file.name⟩] },
       Disposition.unprocessable)

/-- The phase-1 sweep of main: process every enumerated file in order,
pairing each source path with the terminal disposition process_file gave
it. -/
def phase1 (env : MoveEnv) (target_root to_sort_folder unprocessable_folder : FPath) :
    List MFile → OrgState → OrgState × List (FPath × Disposition)
  | [], st => (st, [])
  | f :: rest, st =>
    let r := process_file env f target_root to_sort_folder unprocessable_folder st
    let r2 := phase1 env target_root to_sort_folder unprocessable_folder rest r.1
    (r2.1, (f.path, r.2) :: r2.2)

/-- The body of the loop of process_unsorted_files for one directory entry
of the to_sort folder: skip entries that are not regular files; extract a
date from the bare filename; on success move to the year/month folder,
record the move and the informational issue, and on a raising move record a
MOVE_ERROR issue; on extraction failure do nothing. -/
def processEntry (env : MoveEnv) (nowY nowM : Nat)
    (to_sort_folder target_root : FPath) (st : OrgState) (filename : String) :
    OrgState :=
  let fpath := to_sort_folder ++ [filename]
  if (st.fs fpath).isNone then st
  else
    match extract_timestamp_from_filename nowY nowM filename with
    | some ym =>
      let tpath := target_root ++ [ym.1, ym.2, filename]
      if env.moveFails fpath tpath then
        { st with issues := st.issues ++
            [⟨filename, none, some ErrorCodes.MOVE_ERROR,
              "Failed to move file from to_sort folder"⟩] }
      else
        { st with
            fs := doMove fpath tpath st.fs,
            processLog := st.processLog ++ [(filename, tpath)],
            issues := st.issues ++
              [⟨filename, some WarningCodes.NO_DATE_METADATA, none,
                "Moved based on filename timestamp: " ++ ym.1 ++ "-" ++ ym.2⟩] }
    | none => st

/-- Embedding of process_unsorted_files: fold the entry loop over the
os.listdir listing of the to_sort folder. -/
def process_unsorted_files (env : MoveEnv) (nowY nowM : Nat)
    (to_sort_folder target_root : FPath) (entries : List String)
    (st : OrgState) : OrgState :=
  entries.foldl (processEntry env nowY nowM to_sort_folder target_root) st

/-- The video-extractor environment of a host without the ffprobe
executable, for a file in which hachoir finds no creation date and whose
filesystem timestamps are from 2019. -/
def videoEnvNoFfprobe : VideoEnv :=
  ⟨true, some ⟨none, none, none⟩, false, 0, true, none, true, ⟨2019, 6⟩, ⟨2019, 7⟩⟩

/-- An I/O oracle under which every move succeeds. -/
def envAllOk : MoveEnv := ⟨fun _ _ => false⟩

/-- An I/O oracle under which every move raises. -/
def envAllFail : MoveEnv := ⟨fun _ _ => true⟩

/-- A text file at source/a/x.txt (neither image nor video). -/
def dupFileA : MFile := ⟨["source", "a", "x.txt"], "x.txt", false, false, none, none⟩

/-- A second text file at source/b/x.txt with the same basename. -/
def dupFileB : MFile := ⟨["source", "b", "x.txt"], "x.txt", false, false, none, none⟩

/-- Initial state holding the two distinct files (identities 1 and 2) at
their source paths, with empty logs. -/
def dupState0 : OrgState :=
  ⟨fun p => if p = ["source", "a", "x.txt"] then some 1
    else if p = ["source", "b", "x.txt"] then some 2 else none, [], []⟩

/-- The phase-1 sweep over the two same-basename files with every move
succeeding. -/
def dupRun : OrgState × List (FPath × Disposition) :=
  phase1 envAllOk ["t"] ["t", "to_sort"] ["t", "unprocessable"]
    [dupFileA, dupFileB] dupState0

theorem length_eq_two_cases {α : Type} {l : List α} (h : l.length = 2) :
    ∃ a b, l = [a, b] := by
  rcases l with _ | ⟨a, _ | ⟨b, _ | ⟨c, t⟩⟩⟩ <;> simp_all

theorem length_eq_four_cases {α : Type} {l : List α} (h : l.length = 4) :
    ∃ a b c d, l = [a, b, c, d] := by
  rcases l with _ | ⟨a, _ | ⟨b, _ | ⟨c, _ | ⟨d, _ | ⟨e, t⟩⟩⟩⟩⟩ <;> simp_all

theorem digitsG_unfold_two (g : Nat) :
    digitsG g 2 = [⟨CC.digit, g⟩, ⟨CC.digit, g⟩] := rfl

theorem digitsG_unfold_four (g : Nat) :
    digitsG g 4 = [⟨CC.digit, g⟩, ⟨CC.digit, g⟩, ⟨CC.digit, g⟩, ⟨CC.digit, g⟩] := rfl

/-- On a value that starts with the date pattern, re.search succeeds at the
first position and captures the year and month digit groups. -/
theorem imageDatePat_search (y m d rest : String)
    (hy4 : y.data.length = 4) (hyd : ∀ c ∈ y.data, c.isDigit = true)
    (hm2 : m.data.length = 2) (hmd : ∀ c ∈ m.data, c.isDigit = true)
    (hd2 : d.data.length = 2) (hdd : ∀ c ∈ d.data, c.isDigit = true) :
    searchFrom imageDatePat (y ++ ":" ++ m ++ ":" ++ d ++ rest).data =
      some (y.data, m.data) := by
  obtain ⟨a, b, c1, d1, hy⟩ := length_eq_four_cases hy4
  obtain ⟨e, f, hm⟩ := length_eq_two_cases hm2
  obtain ⟨g, h, hd⟩ := length_eq_two_cases hd2
  have ha : a.isDigit = true := hyd a (by simp [hy])
  have hb : b.isDigit = true := hyd b (by simp [hy])
  have hc1 : c1.isDigit = true := hyd c1 (by simp [hy])
  have hd1 : d1.isDigit = true := hyd d1 (by simp [hy])
  have he : e.isDigit = true := hmd e (by simp [hm])
  have hf : f.isDigit = true := hmd f (by simp [hm])
  have hg : g.isDigit = true := hdd g (by simp [hd])
  have hh : h.isDigit = true := hdd h (by simp [hd])
  have hdata : (y ++ ":" ++ m ++ ":" ++ d ++ rest).data =
      a :: b :: c1 :: d1 :: ':' :: e :: f :: ':' :: g :: h :: rest.data := by
    have hcolon : (":" : String).data = [':'] := rfl
    simp [String.data_append, hy, hm, hd, hcolon]
  rw [hdata, hy, hm]
  simp [searchFrom, matchAt, imageDatePat, digitsG_unfold_two, digitsG_unfold_four,
    ccMatches, ha, hb, hc1, hd1, he, hf, hg, hh]

/-- The EXIF scan returns the captured groups of the first DateTimeOriginal
entry whose value matches, skipping all entries with other tags. -/
theorem scanExif_found (pre post : List TagEntry) (v : String)
    (g1 g2 : List Char)
    (hpre : ∀ e ∈ pre, e.tag ≠ "DateTimeOriginal")
    (hv : searchFrom imageDatePat v.data = some (g1, g2)) :
    scanExif (pre ++ ⟨"DateTimeOriginal", v⟩ :: post) = some (⟨g1⟩, ⟨g2⟩) := by
  induction pre with
  | nil => simp [scanExif, hv]
  | cons e pre ih =>
    have hne : e.tag ≠ "DateTimeOriginal" := hpre e (by simp)
    simpa [scanExif, hne] using ih (fun x hx => hpre x (by simp [hx]))

/-- The EXIF scan falls off the end with None when no DateTimeOriginal
entry has a matching value. -/
theorem scanExif_notFound (entries : List TagEntry)
    (h : ∀ e ∈ entries, e.tag = "DateTimeOriginal" →
      searchFrom imageDatePat e.value.data = none) :
    scanExif entries = none := by
  induction entries with
  | nil => rfl
  | cons e es ih =>
    have hes := ih (fun x hx hxt => h x (by simp [hx]) hxt)
    by_cases ht : e.tag = "DateTimeOriginal"
    · simp [scanExif, ht, h e (by simp) ht, hes]
    · simp [scanExif, ht, hes]

theorem tryPatterns_eq_none_iff (nowY nowM : Nat) (s : List Char)
    (ps : List (List PatElem)) :
    tryPatterns nowY nowM s ps = none ↔
      ∀ p ∈ ps, rejectsB nowY nowM (searchFrom p s) = true := by
  induction ps with
  | nil => simp [tryPatterns]
  | cons p ps ih =>
    rcases hsp : searchFrom p s with _ | g
    · have hstep : tryPatterns nowY nowM s (p :: ps) = tryPatterns nowY nowM s ps := by
        simp [tryPatterns, hsp]
      have hrej : rejectsB nowY nowM (searchFrom p s) = true := by rw [hsp]; rfl
      simp [hstep, List.forall_mem_cons, hrej, ih]
    · by_cases hacc : digitsToNat g.1 < nowY ∨
        (digitsToNat g.1 = nowY ∧ digitsToNat g.2 ≤ nowM)
      · have hstep : tryPatterns nowY nowM s (p :: ps) =
            some (toString (digitsToNat g.1), pad2 (digitsToNat g.2)) := by
          simp [tryPatterns, hsp, hacc]
        have hrej : rejectsB nowY nowM (searchFrom p s) = false := by
          rw [hsp]; simp [rejectsB, hacc]
        simp [hstep, List.forall_mem_cons, hrej]
      · have hstep : tryPatterns nowY nowM s (p :: ps) = tryPatterns nowY nowM s ps := by
          simp [tryPatterns, hsp, hacc]
        have hrej : rejectsB nowY nowM (searchFrom p s) = true := by
          rw [hsp]; simp [rejectsB, hacc]
        simp [hstep, List.forall_mem_cons, hrej, ih]

theorem tryPatterns_some_shape (nowY nowM : Nat) (s : List Char) :
    ∀ (ps : List (List PatElem)) (y m : String),
      tryPatterns nowY nowM s ps = some (y, m) →
      ∃ yn mn, y = toString yn ∧ m = pad2 mn ∧
        (yn < nowY ∨ (yn = nowY ∧ mn ≤ nowM)) := by
  intro ps
  induction ps with
  | nil => intro y m h; simp [tryPatterns] at h
  | cons p ps ih =>
    intro y m h
    rcases hsp : searchFrom p s with _ | g
    · have hstep : tryPatterns nowY nowM s (p :: ps) = tryPatterns nowY nowM s ps := by
        simp [tryPatterns, hsp]
      rw [hstep] at h
      exact ih y m h
    · by_cases hacc : digitsToNat g.1 < nowY ∨
        (digitsToNat g.1 = nowY ∧ digitsToNat g.2 ≤ nowM)
      · have hstep : tryPatterns nowY nowM s (p :: ps) =
            some (toString (digitsToNat g.1), pad2 (digitsToNat g.2)) := by
          simp [tryPatterns, hsp, hacc]
        rw [hstep] at h
        have h2 := Option.some.inj h
        exact ⟨digitsToNat g.1, digitsToNat g.2,
          (congrArg Prod.fst h2).symm, (congrArg Prod.snd h2).symm, hacc⟩
      · have hstep : tryPatterns nowY nowM s (p :: ps) = tryPatterns nowY nowM s ps := by
          simp [tryPatterns, hsp, hacc]
        rw [hstep] at h
        exact ih y m h

theorem matchAt_groups :
    ∀ (p : List PatElem) (s : List Char) (r : List Char × List Char),
      matchAt p s = some r →
      (r.1.length = (p.filter (fun e => e.grp == 1)).length ∧
       r.2.length = (p.filter (fun e => e.grp == 2)).length) ∧
      ((∀ c ∈ r.1, ∃ e ∈ p, e.grp = 1 ∧ ccMatches e.cc c = true) ∧
       (∀ c ∈ r.2, ∃ e ∈ p, e.grp = 2 ∧ ccMatches e.cc c = true)) := by
  intro p
  induction p with
  | nil =>
    intro s r h
    simp [matchAt] at h
    simp [← h]
  | cons e es ih =>
    intro s r h
    cases s with
    | nil => simp [matchAt] at h
    | cons c cs =>
      simp only [matchAt] at h
      by_cases hcc : ccMatches e.cc c = true
      · rw [if_pos hcc] at h
        obtain ⟨r0, hr0, hfr⟩ := Option.map_eq_some'.mp h
        obtain ⟨⟨hl1, hl2⟩, hm1, hm2⟩ := ih cs r0 hr0
        by_cases hg1 : e.grp = 1
        · have hr : r = (c :: r0.1, r0.2) := by rw [← hfr]; simp [hg1]
          subst hr
          refine ⟨⟨?_, ?_⟩, ?_, ?_⟩
          · simp [List.filter_cons, hg1, hl1]
          · simp [List.filter_cons, hg1, hl2]
          · intro x hx
            rcases List.mem_cons.mp hx with hx | hx
            · exact ⟨e, List.mem_cons_self e es, hg1, by rw [hx]; exact hcc⟩
            · obtain ⟨e2, he2, hge, hc2⟩ := hm1 x hx
              exact ⟨e2, List.mem_cons_of_mem e he2, hge, hc2⟩
          · intro x hx
            obtain ⟨e2, he2, hge, hc2⟩ := hm2 x hx
            exact ⟨e2, List.mem_cons_of_mem e he2, hge, hc2⟩
        · by_cases hg2 : e.grp = 2
          · have hr : r = (r0.1, c :: r0.2) := by rw [← hfr]; simp [hg1, hg2]
            subst hr
            refine ⟨⟨?_, ?_⟩, ?_, ?_⟩
            · simp [List.filter_cons, hg1, hl1]
            · simp [List.filter_cons, hg1, hg2, hl2]
            · intro x hx
              obtain ⟨e2, he2, hge, hc2⟩ := hm1 x hx
              exact ⟨e2, List.mem_cons_of_mem e he2, hge, hc2⟩
            · intro x hx
              rcases List.mem_cons.mp hx with hx | hx
              · exact ⟨e, List.mem_cons_self e es, hg2, by rw [hx]; exact hcc⟩
              · obtain ⟨e2, he2, hge, hc2⟩ := hm2 x hx
                exact ⟨e2, List.mem_cons_of_mem e he2, hge, hc2⟩
          · have hr : r = r0 := by rw [← hfr]; simp [hg1, hg2]
            subst hr
            refine ⟨⟨?_, ?_⟩, ?_, ?_⟩
            · simp [List.filter_cons, hg1, hl1]
            · simp [List.filter_cons, hg2, hl2]
            · intro x hx
              obtain ⟨e2, he2, hge, hc2⟩ := hm1 x hx
              exact ⟨e2, List.mem_cons_of_mem e he2, hge, hc2⟩
            · intro x hx
              obtain ⟨e2, he2, hge, hc2⟩ := hm2 x hx
              exact ⟨e2, List.mem_cons_of_mem e he2, hge, hc2⟩
      · rw [if_neg hcc] at h
        exact absurd h (by simp)

theorem searchFrom_inv :
    ∀ (p : List PatElem) (s : List Char) (r : List Char × List Char),
      searchFrom p s = some r → ∃ t, matchAt p t = some r := by
  intro p s
  induction s with
  | nil => exact fun r h => ⟨[], h⟩
  | cons c cs ih =>
    intro r h
    simp only [searchFrom] at h
    rcases hm : matchAt p (c :: cs) with _ | r0
    · rw [hm] at h
      exact ih r h
    · rw [hm] at h
      exact ⟨c :: cs, by rw [hm]; exact h⟩

/-- Any pair the ffprobe block returns directly is formatted from a
datetime value. -/
theorem ffprobeStep_ok_some (env : VideoEnv) (r : String × String)
    (h : ffprobeStep env = Except.ok (some r)) : ∃ d : VDate, r = fmtVDate d := by
  unfold ffprobeStep at h
  by_cases hp : env.ffprobePresent = false
  · rw [if_pos hp] at h
    exact absurd h (by simp)
  · rw [if_neg hp] at h
    by_cases hrc : env.ffprobeRC = 0
    · rw [if_pos hrc] at h
      by_cases hjs : env.ffprobeJsonOk = true
      · rw [if_pos hjs] at h
        rcases hfd : env.ffprobeDate with _ | d2
        · rw [hfd] at h
          exact absurd h (by simp)
        · rw [hfd] at h
          exact ⟨d2, (Option.some.inj (Except.ok.inj h)).symm⟩
      · rw [if_neg hjs] at h
        exact absurd h (by simp)
    · rw [if_neg hrc] at h
      exact absurd h (by simp)

/-- Any pair the file-stats fallback returns is formatted from a datetime
value. -/
theorem fileStatsStep_some (env : VideoEnv) (r : String × String)
    (h : fileStatsStep env = some r) : ∃ d : VDate, r = fmtVDate d := by
  unfold fileStatsStep at h
  by_cases hex : env.fileExists = true
  · rw [if_pos hex] at h
    by_cases hct : env.ctime.year > 1980
    · rw [if_pos hct] at h
      exact ⟨env.ctime, (Option.some.inj h).symm⟩
    · rw [if_neg hct] at h
      by_cases hmt : env.mtime.year > 1980
      · rw [if_pos hmt] at h
        exact ⟨env.mtime, (Option.some.inj h).symm⟩
      · rw [if_neg hmt] at h
        exact absurd h (by simp)
  · rw [if_neg hex] at h
    exact absurd h (by simp)

/-- C2: the claim reads that when the ffprobe tool is absent from the host
the video extractor swallows the failure and still attempts the
filesystem-timestamp fallback.  The code does not: with ffprobe absent,
subprocess.run raises FileNotFoundError at a point where the json module
of the inner try body has not yet been imported, so evaluating the
inner except clause (which mentions json.JSONDecodeError) raises an
UnboundLocalError that is only caught by the outer handler, and the
function returns None without consulting the file timestamps.  This
theorem evaluates the embedded code on such a host, where hachoir finds no
date, the file exists and its timestamps are from 2019: the extractor
answers None although the fallback strategy, run on its own, would have
produced the pair (2019, 06). -/
theorem claim_C2_behavior :
    get_video_date_created videoEnvNoFfprobe = none ∧
      fileStatsStep videoEnvNoFfprobe = some ("2019", "06") := by
  constructor <;> rfl

/-- C3: the claim reads that a filename holding a DD-MM-YYYY or DD_MM_YYYY
date (matched by the second pattern, the earlier pattern failing) yields
the four-digit group as the year and the middle two-digit group as the
month.  The code unpacks the capture groups of that pattern, which are
ordered (middle two digits, four digits), directly as (year, month), so on
the filename 25-12-2020 processed when now is October 2025 it returns year
12 and month 2020 instead of year 2020 and month 12.  This theorem
evaluates the embedded code at that input. -/
theorem claim_C3_behavior :
    searchFrom pat1 ("25-12-2020").data = none ∧
      searchFrom pat2 ("25-12-2020").data = some ("12".data, "2020".data) ∧
      extract_timestamp_from_filename 2025 10 "25-12-2020" = some ("12", "2020") := by
  refine ⟨?_, ?_, ?_⟩ <;> decide

/-- C4 counterexample: the claim reads that when the first matching pattern
extracts a future year/month the extractor returns None, later patterns not
being consulted.  On the filename 2099-01-05 20200315.jpg, processed when
now is October 2025, the first pattern matches with the future pair
(2099, 01), yet the extractor goes on to the third pattern and returns
(2020, 03) rather than None. -/
theorem claim_C4_counterexample :
    searchFrom pat1 ("2099-01-05 20200315.jpg").data =
        some ("2099".data, "01".data) ∧
      ¬(digitsToNat ("2099").data < 2025 ∨
        (digitsToNat ("2099").data = 2025 ∧ digitsToNat ("01").data ≤ 10)) ∧
      extract_timestamp_from_filename 2025 10 "2099-01-05 20200315.jpg" =
        some ("2020", "03") := by
  refine ⟨?_, ?_, ?_⟩ <;> decide

/-- C4 (amended): the patterns are tried in their fixed order, but a
matching pattern whose extracted year/month lies in the future is merely
skipped, the remaining patterns being consulted; the extractor returns
None exactly when every pattern in the list either fails to match or
matches with a future year/month. -/
theorem claim_C4_amended (nowY nowM : Nat) (fn : String) :
    extract_timestamp_from_filename nowY nowM fn = none ↔
      ∀ p ∈ filenamePatterns, rejectsB nowY nowM (searchFrom p fn.data) = true :=
  tryPatterns_eq_none_iff nowY nowM fn.data filenamePatterns

/-- Witness for C4: a filename with no date evidence at all is rejected by
every pattern and the extractor returns None. -/
theorem claim_C4_witness :
    extract_timestamp_from_filename 2025 10 "holiday.jpg" = none :=
  (claim_C4_amended 2025 10 "holiday.jpg").mpr (by decide)

/-- C5 counterexample: the claim reads that every non-None evidence pair
satisfies year at least 1900 and month between 1 and 12.  The image
extractor applies no such validation: on an EXIF DateTimeOriginal value
1111:99:99 00:00:00 it returns the pair (1111, 99), whose year 1111 is
below 1900 and whose month 99 exceeds 12. -/
theorem claim_C5_counterexample :
    get_image_date_taken (some [⟨"DateTimeOriginal", "1111:99:99 00:00:00"⟩]) false =
        some ("1111", "99") ∧
      digitsToNat ("1111").data < 1900 ∧ 12 < digitsToNat ("99").data := by
  refine ⟨?_, ?_, ?_⟩ <;> decide

/-- C5 (amended): every non-None evidence pair has the syntactic shape the
producing extractor guarantees — the image extractor returns the matched
four-digit year string and two-digit month string verbatim and unvalidated;
the filename extractor returns the decimal rendering of the parsed year and
the 02d-padded parsed month, validated only against being in the future of
the current calendar month; the video extractor returns the decimal year
and 02d-padded month of some datetime value it encountered.  The numeric
bounds year at least 1900 and month between 1 and 12 of the claim are not
enforced by any extractor. -/
theorem claim_C5_amended :
    (∀ (exif : Option (List TagEntry)) (raises : Bool) (y m : String),
        get_image_date_taken exif raises = some (y, m) →
        (y.data.length = 4 ∧ ∀ c ∈ y.data, c.isDigit = true) ∧
        (m.data.length = 2 ∧ ∀ c ∈ m.data, c.isDigit = true)) ∧
    (∀ (nowY nowM : Nat) (fn : String) (y m : String),
        extract_timestamp_from_filename nowY nowM fn = some (y, m) →
        ∃ yn mn, y = toString yn ∧ m = pad2 mn ∧
          (yn < nowY ∨ (yn = nowY ∧ mn ≤ nowM))) ∧
    (∀ (env : VideoEnv) (y m : String),
        get_video_date_created env = some (y, m) →
        ∃ d : VDate, y = toString d.year ∧ m = pad2 d.month) := by
  refine ⟨?_, ?_, ?_⟩
  · intro exif raises y m h
    rcases raises with _ | _
    · rcases exif with _ | entries
      · simp [get_image_date_taken] at h
      · simp only [get_image_date_taken, Bool.false_eq_true, if_false] at h
        have hscan : ∀ es : List TagEntry, scanExif es = some (y, m) →
            (y.data.length = 4 ∧ ∀ c ∈ y.data, c.isDigit = true) ∧
            (m.data.length = 2 ∧ ∀ c ∈ m.data, c.isDigit = true) := by
          intro es
          induction es with
          | nil => intro hs; simp [scanExif] at hs
          | cons e es ihs =>
            intro hs
            by_cases ht : e.tag = "DateTimeOriginal"
            · rcases hv : searchFrom imageDatePat e.value.data with _ | g
              · rw [scanExif, if_pos ht, hv] at hs
                exact ihs hs
              · rw [scanExif, if_pos ht, hv] at hs
                have h2 := Option.some.inj hs
                have hy : y.data = g.1 := congrArg (fun q => (Prod.fst q).data) h2 |>.symm
                have hm : m.data = g.2 := congrArg (fun q => (Prod.snd q).data) h2 |>.symm
                obtain ⟨t, hmt⟩ := searchFrom_inv imageDatePat e.value.data g hv
                obtain ⟨⟨hl1, hl2⟩, hq1, hq2⟩ := matchAt_groups imageDatePat t g hmt
                have hcnt1 : (imageDatePat.filter (fun e => e.grp == 1)).length = 4 := by decide
                have hcnt2 : (imageDatePat.filter (fun e => e.grp == 2)).length = 2 := by decide
                have hdig : ∀ e2 ∈ imageDatePat, e2.grp = 1 ∨ e2.grp = 2 → e2.cc = CC.digit := by decide
                refine ⟨⟨by rw [hy, hl1, hcnt1], ?_⟩, ⟨by rw [hm, hl2, hcnt2], ?_⟩⟩
                · intro c hc
                  rw [hy] at hc
                  obtain ⟨e2, he2, hge, hc2⟩ := hq1 c hc
                  have := hdig e2 he2 (Or.inl hge)
                  rw [this] at hc2
                  exact hc2
                · intro c hc
                  rw [hm] at hc
                  obtain ⟨e2, he2, hge, hc2⟩ := hq2 c hc
                  have := hdig e2 he2 (Or.inr hge)
                  rw [this] at hc2
                  exact hc2
            · rw [scanExif, if_neg ht] at hs
              exact ihs hs
        exact hscan entries h
    · simp [get_image_date_taken] at h
  · intro nowY nowM fn y m h
    exact tryPatterns_some_shape nowY nowM fn.data filenamePatterns y m h
  · intro env y m h
    unfold get_video_date_created at h
    rcases hh : hachoirStep env with _ | d
    · rcases hf : ffprobeStep env with e | r
      · simp [hh, hf] at h
      · rcases r with _ | r2
        · simp [hh, hf] at h
          obtain ⟨d2, hd2⟩ := fileStatsStep_some env (y, m) h
          exact ⟨d2, congrArg Prod.fst hd2, congrArg Prod.snd hd2⟩
        · simp [hh, hf] at h
          obtain ⟨d2, hd2⟩ := ffprobeStep_ok_some env r2 hf
          rw [h] at hd2
          exact ⟨d2, congrArg Prod.fst hd2, congrArg Prod.snd hd2⟩
    · simp [hh] at h
      exact ⟨d, congrArg Prod.fst h.symm, congrArg Prod.snd h.symm⟩

/-- Witness for C5 (amended): the shape guarantee instantiated at the
filename IMG_20230714.jpg processed in October 2025, whose evidence is
(2023, 07). -/
theorem claim_C5_witness :
    ∃ yn mn, ("2023" : String) = toString yn ∧ ("07" : String) = pad2 mn ∧
      (yn < 2025 ∨ (yn = 2025 ∧ mn ≤ 10)) :=
  claim_C5_amended.2.1 2025 10 "IMG_20230714.jpg" "2023" "07" (by decide)

/-- C8: for every image whose first DateTimeOriginal entry carries a value
beginning with a four-digit year, a colon, a two-digit month, a colon and a
two-digit day, the image extractor returns exactly the (year, month) string
pair, discarding the day and everything after it; and it returns None,
never letting an exception escape, when the image has no EXIF dictionary,
when reading the metadata raises, or when no DateTimeOriginal entry has a
value containing the date pattern. -/
theorem claim_C8 :
    (∀ (pre post : List TagEntry) (y m d rest : String),
        (∀ e ∈ pre, e.tag ≠ "DateTimeOriginal") →
        y.data.length = 4 → (∀ c ∈ y.data, c.isDigit = true) →
        m.data.length = 2 → (∀ c ∈ m.data, c.isDigit = true) →
        d.data.length = 2 → (∀ c ∈ d.data, c.isDigit = true) →
        get_image_date_taken
          (some (pre ++ ⟨"DateTimeOriginal", y ++ ":" ++ m ++ ":" ++ d ++ rest⟩ :: post))
          false = some (y, m)) ∧
    (∀ raises, get_image_date_taken none raises = none) ∧
    (∀ exif, get_image_date_taken exif true = none) ∧
    (∀ entries : List TagEntry,
        (∀ e ∈ entries, e.tag = "DateTimeOriginal" →
          searchFrom imageDatePat e.value.data = none) →
        get_image_date_taken (some entries) false = none) := by
  refine ⟨?_, ?_, ?_, ?_⟩
  · intro pre post y m d rest hpre hy4 hyd hm2 hmd hd2 hdd
    have hsearch := imageDatePat_search y m d rest hy4 hyd hm2 hmd hd2 hdd
    have hscan := scanExif_found pre post (y ++ ":" ++ m ++ ":" ++ d ++ rest)
      y.data m.data hpre hsearch
    simpa [get_image_date_taken] using hscan
  · intro raises
    rcases raises with _ | _ <;> rfl
  · intro exif
    rfl
  · intro entries h
    simpa [get_image_date_taken] using scanExif_notFound entries h

/-- Witness for C8: an EXIF dictionary with a leading unrelated tag and the
DateTimeOriginal value 2021:03:15 10:00:00 yields exactly (2021, 03). -/
theorem claim_C8_witness :
    get_image_date_taken
      (some [⟨"Model", "X100"⟩, ⟨"DateTimeOriginal", "2021:03:15 10:00:00"⟩])
      false = some ("2021", "03") :=
  claim_C8.1 [⟨"Model", "X100"⟩] [] "2021" "03" "15" " 10:00:00"
    (by decide) (by decide) (by decide) (by decide) (by decide) (by decide) (by decide)

theorem exceptHandler_eq_quarantined (env : MoveEnv) (file : MFile)
    (up : FPath) (st : OrgState)
    (hq : env.moveFails file.path (up ++ [file.name]) = false) :
    exceptHandler env file up st =
      ({ st with
          fs := doMove file.path (up ++ [file.name]) st.fs,
          processLog := st.processLog ++ [(file.name, up ++ [file.name])],
          issues := st.issues ++
            [⟨file.name, none, some ErrorCodes.UNPROCESSABLE_FILE,
              "Error processing file: " ++ file.name⟩] },
       Disposition.unprocessable) := by
  simp [exceptHandler, hq]

theorem exceptHandler_eq_failed (env : MoveEnv) (file : MFile)
    (up : FPath) (st : OrgState)
    (hq : env.moveFails file.path (up ++ [file.name]) = true) :
    exceptHandler env file up st =
      ({ st with issues := st.issues ++
          [⟨file.name, none, some ErrorCodes.MOVE_ERROR,
            "Failed to move file to unprocessable folder"⟩,
           ⟨file.name, none, some ErrorCodes.UNPROCESSABLE_FILE,
            "Error processing file: " ++ file.name⟩] },
       Disposition.failed) := by
  simp [exceptHandler, hq]

theorem process_file_eq_organized (env : MoveEnv) (file : MFile)
    (tr ts up : FPath) (st : OrgState) (ym : String × String)
    (hcat : (file.isImage || file.isVideo) = true)
    (hdi : (if file.isImage then file.imageDate else file.videoDate) = some ym)
    (hmv : env.moveFails file.path (tr ++ [ym.1, ym.2, file.name]) = false) :
    process_file env file tr ts up st =
      ({ st with
          fs := doMove file.path (tr ++ [ym.1, ym.2, file.name]) st.fs,
          processLog := st.processLog ++ [(file.name, tr ++ [ym.1, ym.2, file.name])] },
       Disposition.organized ym.1 ym.2) := by
  simp [process_file, hcat, hdi, hmv]

theorem process_file_eq_organized_moveFailed (env : MoveEnv) (file : MFile)
    (tr ts up : FPath) (st : OrgState) (ym : String × String)
    (hcat : (file.isImage || file.isVideo) = true)
    (hdi : (if file.isImage then file.imageDate else file.videoDate) = some ym)
    (hmv : env.moveFails file.path (tr ++ [ym.1, ym.2, file.name]) = true) :
    process_file env file tr ts up st = exceptHandler env file up st := by
  simp [process_file, hcat, hdi, hmv]

theorem process_file_eq_needsSort (env : MoveEnv) (file : MFile)
    (tr ts up : FPath) (st : OrgState)
    (hcat : (file.isImage || file.isVideo) = true)
    (hdi : (if file.isImage then file.imageDate else file.videoDate) = none)
    (hmv : env.moveFails file.path (ts ++ [file.name]) = false) :
    process_file env file tr ts up st =
      ({ st with
          fs := doMove file.path (ts ++ [file.name]) st.fs,
          processLog := st.processLog ++ [(file.name, ts ++ [file.name])],
          issues := st.issues ++
            [⟨file.name, some WarningCodes.NO_DATE_METADATA, none,
              "No date metadata found: " ++ file.name⟩] },
       Disposition.needsSort) := by
  simp [process_file, hcat, hdi, hmv]

theorem process_file_eq_needsSort_moveFailed (env : MoveEnv) (file : MFile)
    (tr ts up : FPath) (st : OrgState)
    (hcat : (file.isImage || file.isVideo) = true)
    (hdi : (if file.isImage then file.imageDate else file.videoDate) = none)
    (hmv : env.moveFails file.path (ts ++ [file.name]) = true) :
    process_file env file tr ts up st =
      exceptHandler env file up
        { st with issues := st.issues ++
            [⟨file.name, some WarningCodes.NO_DATE_METADATA, none,
              "No date metadata found: " ++ file.name⟩] } := by
  simp [process_file, hcat, hdi, hmv]

theorem process_file_eq_unsupported (env : MoveEnv) (file : MFile)
    (tr ts up : FPath) (st : OrgState)
    (hcat : (file.isImage || file.isVideo) = false)
    (hmv : env.moveFails file.path (up ++ [file.name]) = false) :
    process_file env file tr ts up st =
      ({ st with
          fs := doMove file.path (up ++ [file.name]) st.fs,
          processLog := st.processLog ++ [(file.name, up ++ [file.name])],
          issues := st.issues ++
            [⟨file.name, some WarningCodes.UNSUPPORTED_FILE, none,
              "File is neither image nor video: " ++ file.name⟩] },
       Disposition.unprocessable) := by
  simp [process_file, hcat, hmv]

theorem process_file_eq_unsupported_moveFailed (env : MoveEnv) (file : MFile)
    (tr ts up : FPath) (st : OrgState)
    (hcat : (file.isImage || file.isVideo) = false)
    (hmv : env.moveFails file.path (up ++ [file.name]) = true) :
    process_file env file tr ts up st = exceptHandler env file up st := by
  simp [process_file, hcat, hmv]

/-- Behaviour of the except handler: it never produces an organized or
needs-sort disposition; when it reports unprocessable the file sits in the
quarantine folder with a ProcessEvent recorded; when it reports failed the
file is still at its original path and a MOVE_ERROR issue is recorded. -/
theorem exceptHandler_spec (env : MoveEnv) (file : MFile) (up : FPath)
    (st : OrgState) (fid : Nat)
    (hfs : st.fs file.path = some fid)
    (h3 : file.path ≠ up ++ [file.name]) :
    (∀ y m, (exceptHandler env file up st).2 ≠ Disposition.organized y m) ∧
    ((exceptHandler env file up st).2 ≠ Disposition.needsSort) ∧
    ((exceptHandler env file up st).2 = Disposition.unprocessable →
      (exceptHandler env file up st).1.fs (up ++ [file.name]) = some fid ∧
      (exceptHandler env file up st).1.fs file.path = none ∧
      (file.name, up ++ [file.name]) ∈ (exceptHandler env file up st).1.processLog) ∧
    ((exceptHandler env file up st).2 = Disposition.failed →
      (exceptHandler env file up st).1.fs file.path = some fid ∧
      ∃ i ∈ (exceptHandler env file up st).1.issues,
        i.filename = file.name ∧ i.error = some ErrorCodes.MOVE_ERROR) := by
  rcases Bool.eq_false_or_eq_true (env.moveFails file.path (up ++ [file.name])) with hq | hq
  · rw [exceptHandler_eq_failed env file up st hq]
    refine ⟨?_, ?_, ?_, ?_⟩
    · intro y m h
      simp at h
    · intro h
      simp at h
    · intro h
      simp at h
    · intro _
      exact ⟨hfs, ⟨file.name, none, some ErrorCodes.MOVE_ERROR,
        "Failed to move file to unprocessable folder"⟩, by simp, rfl, rfl⟩
  · rw [exceptHandler_eq_quarantined env file up st hq]
    refine ⟨?_, ?_, ?_, ?_⟩
    · intro y m h
      simp at h
    · intro h
      simp at h
    · intro _
      exact ⟨by simp [doMove, hfs], by simp [doMove, h3], by simp⟩
    · intro h
      simp at h

theorem processEntry_eq_skip (env : MoveEnv) (nowY nowM : Nat) (ts tr : FPath)
    (st : OrgState) (n : String) (hfp : st.fs (ts ++ [n]) = none) :
    processEntry env nowY nowM ts tr st n = st := by
  simp [processEntry, hfp]

theorem processEntry_eq_noDate (env : MoveEnv) (nowY nowM : Nat) (ts tr : FPath)
    (st : OrgState) (n : String)
    (hext : extract_timestamp_from_filename nowY nowM n = none) :
    processEntry env nowY nowM ts tr st n = st := by
  simp [processEntry, hext]

theorem processEntry_eq_moved (env : MoveEnv) (nowY nowM : Nat) (ts tr : FPath)
    (st : OrgState) (n : String) (v : Nat) (ym : String × String)
    (hfp : st.fs (ts ++ [n]) = some v)
    (hext : extract_timestamp_from_filename nowY nowM n = some ym)
    (hmv : env.moveFails (ts ++ [n]) (tr ++ [ym.1, ym.2, n]) = false) :
    processEntry env nowY nowM ts tr st n =
      { st with
          fs := doMove (ts ++ [n]) (tr ++ [ym.1, ym.2, n]) st.fs,
          processLog := st.processLog ++ [(n, tr ++ [ym.1, ym.2, n])],
          issues := st.issues ++
            [⟨n, some WarningCodes.NO_DATE_METADATA, none,
              "Moved based on filename timestamp: " ++ ym.1 ++ "-" ++ ym.2⟩] } := by
  simp [processEntry, hfp, hext, hmv]

theorem processEntry_eq_moveFailed (env : MoveEnv) (nowY nowM : Nat) (ts tr : FPath)
    (st : OrgState) (n : String) (v : Nat) (ym : String × String)
    (hfp : st.fs (ts ++ [n]) = some v)
    (hext : extract_timestamp_from_filename nowY nowM n = some ym)
    (hmv : env.moveFails (ts ++ [n]) (tr ++ [ym.1, ym.2, n]) = true) :
    processEntry env nowY nowM ts tr st n =
      { st with issues := st.issues ++
          [⟨n, none, some ErrorCodes.MOVE_ERROR,
            "Failed to move file from to_sort folder"⟩] } := by
  simp [processEntry, hfp, hext, hmv]

theorem append_single_last {α : Type} (l1 l2 : List α) (a b : α)
    (h : l1 ++ [a] = l2 ++ [b]) : a = b := by
  have h1 := congrArg List.getLast? h
  rw [List.getLast?_append_cons, List.getLast?_append_cons] at h1
  exact Option.some.inj h1

/-- An entry of the to_sort listing other than the tracked file never
touches the tracked file: its own path differs and its year/month
destination is one segment deeper than any to_sort path, and all rows it
logs carry its own filename. -/
theorem processEntry_preserves_other (env : MoveEnv) (nowY nowM : Nat)
    (ts tr : FPath) (st : OrgState) (n name : String) (hne : n ≠ name) :
    (processEntry env nowY nowM ts tr st n).fs (ts ++ [name]) =
      st.fs (ts ++ [name]) ∧
    (processEntry env nowY nowM ts tr st n).issues.filter
        (fun i => i.filename == name) =
      st.issues.filter (fun i => i.filename == name) ∧
    (processEntry env nowY nowM ts tr st n).processLog.filter
        (fun e => e.1 == name) =
      st.processLog.filter (fun e => e.1 == name) := by
  rcases hfp : st.fs (ts ++ [n]) with _ | v
  · rw [processEntry_eq_skip env nowY nowM ts tr st n hfp]
    exact ⟨rfl, rfl, rfl⟩
  · rcases hext : extract_timestamp_from_filename nowY nowM n with _ | ym
    · rw [processEntry_eq_noDate env nowY nowM ts tr st n hext]
      exact ⟨rfl, rfl, rfl⟩
    · rcases Bool.eq_false_or_eq_true
        (env.moveFails (ts ++ [n]) (tr ++ [ym.1, ym.2, n])) with hmv | hmv
      · rw [processEntry_eq_moveFailed env nowY nowM ts tr st n v ym hfp hext hmv]
        refine ⟨rfl, ?_, rfl⟩
        simp [List.filter_append, hne]
      · rw [processEntry_eq_moved env nowY nowM ts tr st n v ym hfp hext hmv]
        have hd1 : ts ++ [name] ≠ tr ++ [ym.1, ym.2, n] := by
          intro hcon
          have hsplit : [ym.1, ym.2, n] = [ym.1, ym.2] ++ [n] := rfl
          rw [hsplit, ← List.append_assoc] at hcon
          exact hne (append_single_last ts (tr ++ [ym.1, ym.2]) name n hcon).symm
        have hd2 : ts ++ [name] ≠ ts ++ [n] := by
          intro hcon
          have h4 := List.append_cancel_left hcon
          have h5 : name = n := by injection h4
          exact hne h5.symm
        refine ⟨by simp [doMove, hd1, hd2], ?_, ?_⟩
        · simp [List.filter_append, hne]
        · simp [List.filter_append, hne]

/-- C1 counterexample: the claim ends by asserting that no processed file
is ever silently lost or overwritten, even when two source files share a
basename.  Processing the two distinct files source/a/x.txt (identity 1)
and source/b/x.txt (identity 2), both of Other category, every move
succeeding, both are moved to t/unprocessable/x.txt and both moves are
recorded as successful ProcessEvents; shutil.move silently replaces the
destination, so after the sweep the quarantine holds only identity 2 and
identity 1 is at no path it ever occupied nor at its logged destination —
it has been silently overwritten. -/
theorem claim_C1_counterexample :
    dupRun.1.fs ["t", "unprocessable", "x.txt"] = some 2 ∧
      dupRun.1.fs ["source", "a", "x.txt"] = none ∧
      dupRun.1.fs ["source", "b", "x.txt"] = none ∧
      dupRun.1.processLog =
        [("x.txt", ["t", "unprocessable", "x.txt"]),
         ("x.txt", ["t", "unprocessable", "x.txt"])] ∧
      dupRun.2 = [(["source", "a", "x.txt"], Disposition.unprocessable),
                  (["source", "b", "x.txt"], Disposition.unprocessable)] := by
  refine ⟨?_, ?_, ?_, ?_, ?_⟩ <;> decide

/-- C1 (amended): every file processed by phase 1 receives exactly one
terminal disposition — the disposition is a single value of the
Disposition type — and the disposition truthfully describes where the file
now is: organized files sit in the year/month folder, needs-sort files in
the to_sort folder, unprocessable files in the quarantine folder, each with
a ProcessEvent recorded and the source path vacated, while failed files are
still at their original path with an error-level issue recorded.  However,
a move silently replaces any file already at its destination path, so when
two processed files route to the same folder with the same basename the
later one overwrites the earlier one (the counterexample); the claim of
no silent overwrite does not hold. -/
theorem claim_C1_amended (env : MoveEnv) (file : MFile)
    (tr ts up : FPath) (st : OrgState) (fid : Nat)
    (hfs : st.fs file.path = some fid)
    (h1 : ∀ y m, file.path ≠ tr ++ [y, m, file.name])
    (h2 : file.path ≠ ts ++ [file.name])
    (h3 : file.path ≠ up ++ [file.name]) :
    (∀ y m,
      (process_file env file tr ts up st).2 = Disposition.organized y m →
        (process_file env file tr ts up st).1.fs (tr ++ [y, m, file.name]) = some fid ∧
        (process_file env file tr ts up st).1.fs file.path = none ∧
        (file.name, tr ++ [y, m, file.name]) ∈
          (process_file env file tr ts up st).1.processLog) ∧
    ((process_file env file tr ts up st).2 = Disposition.needsSort →
        (process_file env file tr ts up st).1.fs (ts ++ [file.name]) = some fid ∧
        (process_file env file tr ts up st).1.fs file.path = none ∧
        (file.name, ts ++ [file.name]) ∈
          (process_file env file tr ts up st).1.processLog ∧
        ∃ i ∈ (process_file env file tr ts up st).1.issues,
          i.filename = file.name ∧ i.warning = some WarningCodes.NO_DATE_METADATA) ∧
    ((process_file env file tr ts up st).2 = Disposition.unprocessable →
        (process_file env file tr ts up st).1.fs (up ++ [file.name]) = some fid ∧
        (process_file env file tr ts up st).1.fs file.path = none ∧
        (file.name, up ++ [file.name]) ∈
          (process_file env file tr ts up st).1.processLog) ∧
    ((process_file env file tr ts up st).2 = Disposition.failed →
        (process_file env file tr ts up st).1.fs file.path = some fid ∧
        ∃ i ∈ (process_file env file tr ts up st).1.issues,
          i.filename = file.name ∧ i.error = some ErrorCodes.MOVE_ERROR) := by
  rcases Bool.eq_false_or_eq_true (file.isImage || file.isVideo) with hcat | hcat
  · rcases hdi : (if file.isImage then file.imageDate else file.videoDate) with _ | ym
    · rcases Bool.eq_false_or_eq_true (env.moveFails file.path (ts ++ [file.name]))
        with hmv | hmv
      · rw [process_file_eq_needsSort_moveFailed env file tr ts up st hcat hdi hmv]
        obtain ⟨s1, s2, s3, s4⟩ := exceptHandler_spec env file up
          { st with issues := st.issues ++ [⟨file.name, some WarningCodes.NO_DATE_METADATA,
            none, "No date metadata found: " ++ file.name⟩] } fid hfs h3
        exact ⟨fun y m h => absurd h (s1 y m), fun h => absurd h s2, s3, s4⟩
      · rw [process_file_eq_needsSort env file tr ts up st hcat hdi hmv]
        refine ⟨?_, ?_, ?_, ?_⟩
        · intro y m h
          simp at h
        · intro _
          refine ⟨by simp [doMove, hfs], by simp [doMove, h2], by simp, ?_⟩
          exact ⟨⟨file.name, some WarningCodes.NO_DATE_METADATA, none,
            "No date metadata found: " ++ file.name⟩, by simp, rfl, rfl⟩
        · intro h
          simp at h
        · intro h
          simp at h
    · rcases Bool.eq_false_or_eq_true
        (env.moveFails file.path (tr ++ [ym.1, ym.2, file.name])) with hmv | hmv
      · rw [process_file_eq_organized_moveFailed env file tr ts up st ym hcat hdi hmv]
        obtain ⟨s1, s2, s3, s4⟩ := exceptHandler_spec env file up st fid hfs h3
        exact ⟨fun y m h => absurd h (s1 y m), fun h => absurd h s2, s3, s4⟩
      · rw [process_file_eq_organized env file tr ts up st ym hcat hdi hmv]
        refine ⟨?_, ?_, ?_, ?_⟩
        · intro y m h
          simp only [] at h
          have hy : ym.1 = y := by
            have := congrArg (fun d => match d with
              | Disposition.organized a _ => a
              | _ => ym.1) h
            simpa using this
          have hm : ym.2 = m := by
            have := congrArg (fun d => match d with
              | Disposition.organized _ b => b
              | _ => ym.2) h
            simpa using this
          subst hy
          subst hm
          exact ⟨by simp [doMove, hfs], by simp [doMove, h1 ym.1 ym.2], by simp⟩
        · intro h
          simp at h
        · intro h
          simp at h
        · intro h
          simp at h
  · rcases Bool.eq_false_or_eq_true (env.moveFails file.path (up ++ [file.name]))
      with hmv | hmv
    · rw [process_file_eq_unsupported_moveFailed env file tr ts up st hcat hmv]
      obtain ⟨s1, s2, s3, s4⟩ := exceptHandler_spec env file up st fid hfs h3
      exact ⟨fun y m h => absurd h (s1 y m), fun h => absurd h s2, s3, s4⟩
    · rw [process_file_eq_unsupported env file tr ts up st hcat hmv]
      refine ⟨?_, ?_, ?_, ?_⟩
      · intro y m h
        simp at h
      · intro h
        simp at h
      · intro _
        exact ⟨by simp [doMove, hfs], by simp [doMove, h3], by simp⟩
      · intro h
        simp at h

/-- Witness for C1 (amended): the Other-category file source/a/x.txt with
every move succeeding lands in the quarantine folder with its move
recorded and its source path vacated. -/
theorem claim_C1_witness :
    (process_file envAllOk dupFileA ["t"] ["t", "to_sort"]
        ["t", "unprocessable"] dupState0).1.fs
      (["t", "unprocessable"] ++ ["x.txt"]) = some 1 ∧
    (process_file envAllOk dupFileA ["t"] ["t", "to_sort"]
        ["t", "unprocessable"] dupState0).1.fs dupFileA.path = none ∧
    ("x.txt", ["t", "unprocessable"] ++ ["x.txt"]) ∈
      (process_file envAllOk dupFileA ["t"] ["t", "to_sort"]
        ["t", "unprocessable"] dupState0).1.processLog := by
  obtain ⟨w1, w2, w3, w4⟩ := claim_C1_amended envAllOk dupFileA ["t"] ["t", "to_sort"]
    ["t", "unprocessable"] dupState0 1 (by decide)
    (by intro y m h; simp [dupFileA] at h)
    (by intro h; simp [dupFileA] at h)
    (by intro h; simp [dupFileA] at h)
  exact w3 (by decide)

/-- C6: whenever phase-1 processing of a file raises (in the embedding, a
raising move), control reaches the except handler, which attempts the
secondary move to the quarantine folder: if that secondary move would
succeed the file never ends in the failed state, and whenever the file does
end failed the filesystem is untouched (the file remains at its current
location) and an error-level MOVE_ERROR issue is recorded.  No exception
escapes process_file — it is a total function into a final state — and the
sweep continues: every file of the list receives a disposition in the
phase-1 output under every I/O oracle. -/
theorem claim_C6 (env : MoveEnv) (file : MFile) (tr ts up : FPath)
    (st : OrgState) (files : List MFile) :
    ((process_file env file tr ts up st).2 = Disposition.failed →
      (process_file env file tr ts up st).1.fs = st.fs ∧
      ∃ i ∈ (process_file env file tr ts up st).1.issues,
        i.filename = file.name ∧ i.error = some ErrorCodes.MOVE_ERROR) ∧
    (env.moveFails file.path (up ++ [file.name]) = false →
      (process_file env file tr ts up st).2 ≠ Disposition.failed) ∧
    (∀ f ∈ files, ∃ d, (f.path, d) ∈ (phase1 env tr ts up files st).2) := by
  refine ⟨?_, ?_, ?_⟩
  · rcases Bool.eq_false_or_eq_true (file.isImage || file.isVideo) with hcat | hcat
    · rcases hdi : (if file.isImage then file.imageDate else file.videoDate) with _ | ym
      · rcases Bool.eq_false_or_eq_true (env.moveFails file.path (ts ++ [file.name]))
          with hmv | hmv
        · rw [process_file_eq_needsSort_moveFailed env file tr ts up st hcat hdi hmv]
          rcases Bool.eq_false_or_eq_true (env.moveFails file.path (up ++ [file.name]))
            with hq | hq
          · rw [exceptHandler_eq_failed env file up _ hq]
            intro _
            exact ⟨rfl, ⟨file.name, none, some ErrorCodes.MOVE_ERROR,
              "Failed to move file to unprocessable folder"⟩, by simp, rfl, rfl⟩
          · rw [exceptHandler_eq_quarantined env file up _ hq]
            intro h
            simp at h
        · rw [process_file_eq_needsSort env file tr ts up st hcat hdi hmv]
          intro h
          simp at h
      · rcases Bool.eq_false_or_eq_true
          (env.moveFails file.path (tr ++ [ym.1, ym.2, file.name])) with hmv | hmv
        · rw [process_file_eq_organized_moveFailed env file tr ts up st ym hcat hdi hmv]
          rcases Bool.eq_false_or_eq_true (env.moveFails file.path (up ++ [file.name]))
            with hq | hq
          · rw [exceptHandler_eq_failed env file up _ hq]
            intro _
            exact ⟨rfl, ⟨file.name, none, some ErrorCodes.MOVE_ERROR,
              "Failed to move file to unprocessable folder"⟩, by simp, rfl, rfl⟩
          · rw [exceptHandler_eq_quarantined env file up _ hq]
            intro h
            simp at h
        · rw [process_file_eq_organized env file tr ts up st ym hcat hdi hmv]
          intro h
          simp at h
    · rcases Bool.eq_false_or_eq_true (env.moveFails file.path (up ++ [file.name]))
        with hmv | hmv
      · rw [process_file_eq_unsupported_moveFailed env file tr ts up st hcat hmv,
            exceptHandler_eq_failed env file up st hmv]
        intro _
        exact ⟨rfl, ⟨file.name, none, some ErrorCodes.MOVE_ERROR,
          "Failed to move file to unprocessable folder"⟩, by simp, rfl, rfl⟩
      · rw [process_file_eq_unsupported env file tr ts up st hcat hmv]
        intro h
        simp at h
  · intro hq
    rcases Bool.eq_false_or_eq_true (file.isImage || file.isVideo) with hcat | hcat
    · rcases hdi : (if file.isImage then file.imageDate else file.videoDate) with _ | ym
      · rcases Bool.eq_false_or_eq_true (env.moveFails file.path (ts ++ [file.name]))
          with hmv | hmv
        · rw [process_file_eq_needsSort_moveFailed env file tr ts up st hcat hdi hmv,
              exceptHandler_eq_quarantined env file up _ hq]
          simp
        · rw [process_file_eq_needsSort env file tr ts up st hcat hdi hmv]
          simp
      · rcases Bool.eq_false_or_eq_true
          (env.moveFails file.path (tr ++ [ym.1, ym.2, file.name])) with hmv | hmv
        · rw [process_file_eq_organized_moveFailed env file tr ts up st ym hcat hdi hmv,
              exceptHandler_eq_quarantined env file up _ hq]
          simp
        · rw [process_file_eq_organized env file tr ts up st ym hcat hdi hmv]
          simp
    · rcases Bool.eq_false_or_eq_true (env.moveFails file.path (up ++ [file.name]))
        with hmv | hmv
      · rw [hq] at hmv
        simp at hmv
      · rw [process_file_eq_unsupported env file tr ts up st hcat hmv]
        simp
  · have hall : ∀ (fs : List MFile) (st0 : OrgState),
        ∀ f ∈ fs, ∃ d, (f.path, d) ∈ (phase1 env tr ts up fs st0).2 := by
      intro fs
      induction fs with
      | nil =>
        intro st0 f hf
        cases hf
      | cons g rest ih =>
        intro st0 f hf
        have hcons : (phase1 env tr ts up (g :: rest) st0).2 =
            (g.path, (process_file env g tr ts up st0).2) ::
              (phase1 env tr ts up rest (process_file env g tr ts up st0).1).2 := rfl
        rcases List.mem_cons.mp hf with h | h
        · subst h
          refine ⟨(process_file env f tr ts up st0).2, ?_⟩
          rw [hcons]
          exact List.mem_cons_self _ _
        · obtain ⟨d, hd⟩ := ih (process_file env g tr ts up st0).1 f h
          refine ⟨d, ?_⟩
          rw [hcons]
          exact List.mem_cons_of_mem _ hd
    exact hall files st

/-- Witness for C6: under the oracle where every move raises, the text file
source/a/x.txt ends the failed branch: the filesystem is unchanged and a
MOVE_ERROR issue is on record. -/
theorem claim_C6_witness :
    (process_file envAllFail dupFileA ["t"] ["t", "to_sort"] ["t", "unprocessable"]
        dupState0).1.fs = dupState0.fs ∧
      ∃ i ∈ (process_file envAllFail dupFileA ["t"] ["t", "to_sort"]
          ["t", "unprocessable"] dupState0).1.issues,
        i.filename = "x.txt" ∧ i.error = some ErrorCodes.MOVE_ERROR :=
  (claim_C6 envAllFail dupFileA ["t"] ["t", "to_sort"] ["t", "unprocessable"]
    dupState0 []).1 (by decide)

/-- C7: a file classified neither image nor video never receives the
organized or needs-sort disposition, whatever date information its
metadata or filename would yield (the imageDate and videoDate fields of the
file are universally quantified and never consulted on this branch); when
the move succeeds the outcome is exactly unprocessable: the file sits in
the quarantine folder under its basename, the move is recorded, and an
UNSUPPORTED_FILE warning issue is recorded. -/
theorem claim_C7 (env : MoveEnv) (file : MFile) (tr ts up : FPath) (st : OrgState)
    (hI : file.isImage = false) (hV : file.isVideo = false) :
    ((process_file env file tr ts up st).2 = Disposition.unprocessable ∨
      (process_file env file tr ts up st).2 = Disposition.failed) ∧
    (env.moveFails file.path (up ++ [file.name]) = false →
      (process_file env file tr ts up st).2 = Disposition.unprocessable ∧
      (process_file env file tr ts up st).1.fs (up ++ [file.name]) =
        st.fs file.path ∧
      (file.name, up ++ [file.name]) ∈
        (process_file env file tr ts up st).1.processLog ∧
      ∃ i ∈ (process_file env file tr ts up st).1.issues,
        i.filename = file.name ∧ i.warning = some WarningCodes.UNSUPPORTED_FILE) := by
  have hcat : (file.isImage || file.isVideo) = false := by rw [hI, hV]; rfl
  rcases Bool.eq_false_or_eq_true (env.moveFails file.path (up ++ [file.name]))
    with hmv | hmv
  · rw [process_file_eq_unsupported_moveFailed env file tr ts up st hcat hmv,
        exceptHandler_eq_failed env file up st hmv]
    refine ⟨Or.inr rfl, ?_⟩
    intro hq
    rw [hq] at hmv
    simp at hmv
  · rw [process_file_eq_unsupported env file tr ts up st hcat hmv]
    refine ⟨Or.inl rfl, ?_⟩
    intro _
    refine ⟨rfl, by simp [doMove], by simp, ?_⟩
    exact ⟨⟨file.name, some WarningCodes.UNSUPPORTED_FILE, none,
      "File is neither image nor video: " ++ file.name⟩, by simp, rfl, rfl⟩

/-- Witness for C7: the text file source/a/x.txt, with every move
succeeding, is quarantined with a recorded move and warning. -/
theorem claim_C7_witness :
    (process_file envAllOk dupFileA ["t"] ["t", "to_sort"] ["t", "unprocessable"]
        dupState0).2 = Disposition.unprocessable ∧
      (process_file envAllOk dupFileA ["t"] ["t", "to_sort"] ["t", "unprocessable"]
          dupState0).1.fs (["t", "unprocessable"] ++ ["x.txt"]) =
        dupState0.fs dupFileA.path ∧
      ("x.txt", ["t", "unprocessable"] ++ ["x.txt"]) ∈
        (process_file envAllOk dupFileA ["t"] ["t", "to_sort"] ["t", "unprocessable"]
          dupState0).1.processLog ∧
      ∃ i ∈ (process_file envAllOk dupFileA ["t"] ["t", "to_sort"]
          ["t", "unprocessable"] dupState0).1.issues,
        i.filename = "x.txt" ∧ i.warning = some WarningCodes.UNSUPPORTED_FILE :=
  (claim_C7 envAllOk dupFileA ["t"] ["t", "to_sort"] ["t", "unprocessable"]
    dupState0 rfl rfl).2 rfl

/-- C9: during the phase-2 resort sweep, a to_sort entry from which the
filename extractor recovers no date is left untouched by the whole sweep:
the filesystem still answers the same at its to_sort path, and neither the
issues table nor the process_log table gains or loses a row carrying its
filename. -/
theorem claim_C9 (env : MoveEnv) (nowY nowM : Nat) (ts tr : FPath)
    (entries : List String) (st : OrgState) (name : String)
    (hext : extract_timestamp_from_filename nowY nowM name = none) :
    (process_unsorted_files env nowY nowM ts tr entries st).fs (ts ++ [name]) =
      st.fs (ts ++ [name]) ∧
    (process_unsorted_files env nowY nowM ts tr entries st).issues.filter
        (fun i => i.filename == name) =
      st.issues.filter (fun i => i.filename == name) ∧
    (process_unsorted_files env nowY nowM ts tr entries st).processLog.filter
        (fun e => e.1 == name) =
      st.processLog.filter (fun e => e.1 == name) := by
  induction entries generalizing st with
  | nil => exact ⟨rfl, rfl, rfl⟩
  | cons n rest ih =>
    have hstep : process_unsorted_files env nowY nowM ts tr (n :: rest) st =
        process_unsorted_files env nowY nowM ts tr rest
          (processEntry env nowY nowM ts tr st n) := rfl
    by_cases hn : n = name
    · subst hn
      rw [hstep, processEntry_eq_noDate env nowY nowM ts tr st n hext]
      exact ih st
    · obtain ⟨p1, p2, p3⟩ :=
        processEntry_preserves_other env nowY nowM ts tr st n name hn
      obtain ⟨q1, q2, q3⟩ := ih (processEntry env nowY nowM ts tr st n)
      rw [hstep]
      exact ⟨q1.trans p1, q2.trans p2, q3.trans p3⟩

/-- Witness for C9: a sweep over the single entry holiday.jpg, whose name
yields no date, changes nothing about it. -/
theorem claim_C9_witness :
    (process_unsorted_files envAllOk 2025 10 ["t", "to_sort"] ["t"]
        ["holiday.jpg"] dupState0).fs (["t", "to_sort"] ++ ["holiday.jpg"]) =
      dupState0.fs (["t", "to_sort"] ++ ["holiday.jpg"]) ∧
    (process_unsorted_files envAllOk 2025 10 ["t", "to_sort"] ["t"]
        ["holiday.jpg"] dupState0).issues.filter
        (fun i => i.filename == "holiday.jpg") =
      dupState0.issues.filter (fun i => i.filename == "holiday.jpg") ∧
    (process_unsorted_files envAllOk 2025 10 ["t", "to_sort"] ["t"]
        ["holiday.jpg"] dupState0).processLog.filter
        (fun e => e.1 == "holiday.jpg") =
      dupState0.processLog.filter (fun e => e.1 == "holiday.jpg") :=
  claim_C9 envAllOk 2025 10 ["t", "to_sort"] ["t"] ["holiday.jpg"] dupState0
    "holiday.jpg" (by decide)

/-- Every move the except handler performs is logged: a path whose content
changed is either the vacated source or carries a ProcessEvent naming the
file. -/
theorem exceptHandler_move_logged (env : MoveEnv) (file : MFile) (up : FPath)
    (st : OrgState) (p : FPath) :
    (exceptHandler env file up st).1.fs p ≠ st.fs p →
    p = file.path ∨ (file.name, p) ∈ (exceptHandler env file up st).1.processLog := by
  rcases Bool.eq_false_or_eq_true (env.moveFails file.path (up ++ [file.name]))
    with hq | hq
  · rw [exceptHandler_eq_failed env file up st hq]
    intro h
    exact absurd rfl h
  · rw [exceptHandler_eq_quarantined env file up st hq]
    intro h
    by_cases hp : p = up ++ [file.name]
    · subst hp
      right
      simp
    · by_cases hps : p = file.path
      · exact Or.inl hps
      · exact absurd (by simp [doMove, hp, hps]) h

/-- C10: in both phases, every successful move records a ProcessEvent
naming the file and its destination: any path whose content differs after
processing one file is either that file's vacated source path or appears in
the process log paired with the file's name.  This covers the moves into
the to_sort holding folder, the quarantine moves of Other-category files,
the quarantine moves performed by the except handler, and the phase-2
year/month moves, so quarantined and held files appear in the process log
and not only in the issues log. -/
theorem claim_C10 :
    (∀ (env : MoveEnv) (file : MFile) (tr ts up : FPath) (st : OrgState) (p : FPath),
      (process_file env file tr ts up st).1.fs p ≠ st.fs p →
      p = file.path ∨
        (file.name, p) ∈ (process_file env file tr ts up st).1.processLog) ∧
    (∀ (env : MoveEnv) (nowY nowM : Nat) (ts tr : FPath) (st : OrgState)
        (entry : String) (p : FPath),
      (processEntry env nowY nowM ts tr st entry).fs p ≠ st.fs p →
      p = ts ++ [entry] ∨
        (entry, p) ∈ (processEntry env nowY nowM ts tr st entry).processLog) := by
  constructor
  · intro env file tr ts up st p
    rcases Bool.eq_false_or_eq_true (file.isImage || file.isVideo) with hcat | hcat
    · rcases hdi : (if file.isImage then file.imageDate else file.videoDate) with _ | ym
      · rcases Bool.eq_false_or_eq_true (env.moveFails file.path (ts ++ [file.name]))
          with hmv | hmv
        · rw [process_file_eq_needsSort_moveFailed env file tr ts up st hcat hdi hmv]
          exact exceptHandler_move_logged env file up _ p
        · rw [process_file_eq_needsSort env file tr ts up st hcat hdi hmv]
          intro h
          by_cases hp : p = ts ++ [file.name]
          · subst hp
            right
            simp
          · by_cases hps : p = file.path
            · exact Or.inl hps
            · exact absurd (by simp [doMove, hp, hps]) h
      · rcases Bool.eq_false_or_eq_true
          (env.moveFails file.path (tr ++ [ym.1, ym.2, file.name])) with hmv | hmv
        · rw [process_file_eq_organized_moveFailed env file tr ts up st ym hcat hdi hmv]
          exact exceptHandler_move_logged env file up st p
        · rw [process_file_eq_organized env file tr ts up st ym hcat hdi hmv]
          intro h
          by_cases hp : p = tr ++ [ym.1, ym.2, file.name]
          · subst hp
            right
            simp
          · by_cases hps : p = file.path
            · exact Or.inl hps
            · exact absurd (by simp [doMove, hp, hps]) h
    · rcases Bool.eq_false_or_eq_true (env.moveFails file.path (up ++ [file.name]))
        with hmv | hmv
      · rw [process_file_eq_unsupported_moveFailed env file tr ts up st hcat hmv]
        exact exceptHandler_move_logged env file up st p
      · rw [process_file_eq_unsupported env file tr ts up st hcat hmv]
        intro h
        by_cases hp : p = up ++ [file.name]
        · subst hp
          right
          simp
        · by_cases hps : p = file.path
          · exact Or.inl hps
          · exact absurd (by simp [doMove, hp, hps]) h
  · intro env nowY nowM ts tr st entry p
    rcases hfp : st.fs (ts ++ [entry]) with _ | v
    · rw [processEntry_eq_skip env nowY nowM ts tr st entry hfp]
      intro h
      exact absurd rfl h
    · rcases hext : extract_timestamp_from_filename nowY nowM entry with _ | ym
      · rw [processEntry_eq_noDate env nowY nowM ts tr st entry hext]
        intro h
        exact absurd rfl h
      · rcases Bool.eq_false_or_eq_true
          (env.moveFails (ts ++ [entry]) (tr ++ [ym.1, ym.2, entry])) with hmv | hmv
        · rw [processEntry_eq_moveFailed env nowY nowM ts tr st entry v ym hfp hext hmv]
          intro h
          exact absurd rfl h
        · rw [processEntry_eq_moved env nowY nowM ts tr st entry v ym hfp hext hmv]
          intro h
          by_cases hp : p = tr ++ [ym.1, ym.2, entry]
          · subst hp
            right
            simp
          · by_cases hps : p = ts ++ [entry]
            · exact Or.inl hps
            · exact absurd (by simp [doMove, hp, hps]) h

/-- Witness for C10: after quarantining source/a/x.txt, the quarantine path
holds new content and indeed carries a ProcessEvent naming the file. -/
theorem claim_C10_witness :
    (["t", "unprocessable", "x.txt"] : FPath) = dupFileA.path ∨
      ("x.txt", (["t", "unprocessable", "x.txt"] : FPath)) ∈
        (process_file envAllOk dupFileA ["t"] ["t", "to_sort"]
          ["t", "unprocessable"] dupState0).1.processLog :=
  claim_C10.1 envAllOk dupFileA ["t"] ["t", "to_sort"] ["t", "unprocessable"]
    dupState0 ["t", "unprocessable", "x.txt"] (by decide)

